import Mathlib

/-!
Verification of the stock-market dashboard's core behavior against its
specification.  The Python source is shallowly embedded: prices and volumes
become rationals, IEEE float special values that the code can produce are
tracked explicitly by `PyFloat`, pandas DataFrames become lists of records,
and fallible code returns `Option`/`Except`.
-/

/-- Result type of a numpy/pandas floating-point computation, as far as the
dashboard code can observe it: a finite value, a signed infinity (produced by
dividing a nonzero number by zero) or NaN (0/0).  Rounding is not modelled;
none of the verified properties depend on it. -/
inductive PyFloat where
  | fin (q : ℚ)
  | posInf
  | negInf
  | nan
deriving DecidableEq

/-- Truth of `PyFloat.nan`, used to model pandas dropping NaN sort keys. -/
def PyFloat.isNan : PyFloat → Bool
  | .nan => true
  | _ => false

/-- Division of numpy float64 scalars: finite quotient when the divisor is
nonzero, otherwise a signed infinity (or NaN for 0/0), exactly as IEEE-754
division behaves on the values the dashboard feeds it. -/
def pyDiv (a b : ℚ) : PyFloat :=
  if b = 0 then
    if 0 < a then .posInf else if a < 0 then .negInf else .nan
  else .fin (a / b)

/-- Embedding of `change = ((price - prev_price) / prev_price) * 100` from
`load_stock_data` (src/dashboard.py lines 174-176).  Multiplying by the
positive constant 100 preserves infinities and NaN. -/
def pctChange (price prev_price : ℚ) : PyFloat :=
  match pyDiv (price - prev_price) prev_price with
  | .fin q => .fin (q * 100)
  | x => x

/-- One session's bar for one symbol: the `Close` and `Volume` columns the
code reads from the downloaded frame. -/
structure QuoteBar where
  close : ℚ
  volume : ℚ
deriving DecidableEq

/-- The fields of `ticker.info` that `load_stock_data` reads, each optional
exactly as the code's `info.get(..., default)` treats it. -/
structure TickerInfo where
  shortName : Option String
  sector : Option String
  marketCap : Option ℚ
  trailingPE : Option ℚ
  dividendYield : Option ℚ
deriving DecidableEq

/-- One row of the DataFrame built by `load_stock_data`
(src/dashboard.py lines 193-203). -/
structure StockSnapshot where
  symbol : String
  name : String
  sector : String
  price : ℚ
  change : PyFloat
  volume : ℚ
  market_cap : ℚ
  pe_ratio : Option ℚ
  dividend_yield : ℚ
deriving DecidableEq

/-- Assembly of one snapshot row from the two session bars and the ticker
info, following src/dashboard.py lines 173-203 field by field (including the
truthiness test `if dividend_yield:` before the `* 100` scaling). -/
def mkSnapshot (symbol : String) (today_data yesterday_data : QuoteBar)
    (info : TickerInfo) : StockSnapshot :=
  let price := today_data.close
  let prev_price := yesterday_data.close
  let change := pctChange price prev_price
  let dy0 := info.dividendYield.getD 0
  { symbol := symbol
    name := info.shortName.getD symbol
    sector := info.sector.getD "Unknown"
    price := price
    change := change
    volume := today_data.volume
    market_cap := info.marketCap.getD 0
    pe_ratio := info.trailingPE
    dividend_yield := if dy0 ≠ 0 then dy0 * 100 else dy0 }

/-- Per-symbol body of the builder loop: `iloc[-1]` / `iloc[-2]` on the
symbol's downloaded rows.  With fewer than two rows `iloc[-2]` raises
`IndexError`, which the surrounding `except` swallows, so the symbol yields
no row (`none`); otherwise a snapshot is assembled
(src/dashboard.py lines 159-203). -/
def processSymbol (symbol : String) (rows : List QuoteBar)
    (info : TickerInfo) : Option StockSnapshot :=
  match rows with
  | [] => none
  | [_] => none
  | _ :: _ :: _ =>
      some (mkSnapshot symbol (rows.getD (rows.length - 1) ⟨0, 0⟩)
        (rows.getD (rows.length - 2) ⟨0, 0⟩) info)

/-- The per-symbol fetch (`data[symbol]` plus `yf.Ticker(symbol).info`): an
exception anywhere in it is the `Except.error` case, caught by the loop's
per-symbol handler. -/
def SymbolFetch : Type := String → Except String (List QuoteBar × TickerInfo)

/-- Loop of `load_stock_data` over the symbol list: each symbol is processed
independently, a raised exception (`.error`) or an `IndexError` inside
`processSymbol` merely skips the symbol (`logger.warning` + `continue`),
src/dashboard.py lines 156-207. -/
def buildRows (symbols : List String) (fetch : SymbolFetch) :
    List StockSnapshot :=
  symbols.filterMap (fun s =>
    match fetch s with
    | .error _ => none
    | .ok (rows, info) => processSymbol s rows info)

/-- Embedding of `load_stock_data` (src/dashboard.py lines 132-216): the
whole-batch download may itself fail, in which case the outer `except`
returns `None`; otherwise the per-symbol loop produces the DataFrame. -/
def load_stock_data (symbols : List String) (download : Except String Unit)
    (fetch : SymbolFetch) : Option (List StockSnapshot) :=
  match download with
  | .error _ => none
  | .ok _ => some (buildRows symbols fetch)

/-- Whether a symbol survives the builder loop: its fetch succeeded and its
frame had the two rows the change computation needs. -/
def symbolOk (fetch : SymbolFetch) (s : String) : Bool :=
  match fetch s with
  | .error _ => false
  | .ok (rows, info) => (processSymbol s rows info).isSome

/-- Adapter for the concrete {A, B, C} scenario: raises for B only. -/
def exampleFetch : SymbolFetch := fun s =>
  if s = "B" then .error "boom"
  else .ok ([⟨10, 100⟩, ⟨11, 120⟩],
    ⟨some s, some "Technology", some 1000, some 20, none⟩)

theorem processSymbol_symbol {s : String} {rows : List QuoteBar}
    {info : TickerInfo} {snap : StockSnapshot}
    (h : processSymbol s rows info = some snap) : snap.symbol = s := by
  cases rows with
  | nil => simp [processSymbol] at h
  | cons a t =>
    cases t with
    | nil => simp [processSymbol] at h
    | cons b u =>
      simp only [processSymbol, Option.some.injEq] at h
      subst h
      rfl

theorem buildRows_symbols (symbols : List String) (fetch : SymbolFetch) :
    (buildRows symbols fetch).map (fun s => s.symbol)
      = symbols.filter (symbolOk fetch) := by
  induction symbols with
  | nil => rfl
  | cons s ss ih =>
    simp only [buildRows, List.filterMap_cons] at *
    cases hf : fetch s with
    | error e => simpa [List.filter_cons, symbolOk, hf] using ih
    | ok pr =>
      obtain ⟨rows, info⟩ := pr
      cases hp : processSymbol s rows info with
      | none => simpa [List.filter_cons, symbolOk, hf, hp] using ih
      | some snap =>
        simp only [List.filter_cons, symbolOk, hf, hp, Option.isSome_some,
          List.map_cons, processSymbol_symbol hp]
        simpa using ih

/-- Linear preorder on observable float values used when pandas sorts a
column: NaN at the bottom (it is filtered away before sorting anyway),
then -inf, finite values by their rational order, then +inf. -/
def pyLe : PyFloat → PyFloat → Bool
  | .nan, _ => true
  | _, .nan => false
  | .negInf, _ => true
  | _, .negInf => false
  | .fin p, .fin q => decide (p ≤ q)
  | .fin _, .posInf => true
  | .posInf, .posInf => true
  | .posInf, .fin _ => false

theorem pyLe_refl (a : PyFloat) : pyLe a a = true := by
  cases a <;> simp [pyLe]

theorem pyLe_total (a b : PyFloat) : pyLe a b = true ∨ pyLe b a = true := by
  cases a <;> cases b <;> simp [pyLe]
  exact le_total _ _

theorem pyLe_trans {a b c : PyFloat} (h1 : pyLe a b = true)
    (h2 : pyLe b c = true) : pyLe a c = true := by
  cases a <;> cases b <;> cases c <;> simp_all [pyLe]
  exact le_trans h1 h2

/-- Stable insertion used by the sort: `a` is placed before the first
element `b` it is preferred to (`pref a b = true`). -/
def insertBy (pref : α → α → Bool) (a : α) : List α → List α
  | [] => [a]
  | b :: bs => if pref a b then a :: b :: bs else b :: insertBy pref a bs

/-- Stable sort: elements are inserted left to right, so among elements the
preference relation ties, the original (arrival) order is kept.  This is the
order `pandas.nlargest` / `nsmallest` with the default `keep` policy
("prioritize the first occurrence") produce. -/
def sortBy (pref : α → α → Bool) : List α → List α
  | [] => []
  | x :: xs => insertBy pref x (sortBy pref xs)

theorem insertBy_perm (pref : α → α → Bool) (a : α) (l : List α) :
    List.Perm (insertBy pref a l) (a :: l) := by
  induction l with
  | nil => exact List.Perm.refl _
  | cons b bs ih =>
    simp only [insertBy]
    by_cases h : pref a b = true
    · simp [h]
    · simp only [h, if_neg, Bool.not_eq_true]
      exact (List.Perm.cons b ih).trans (List.Perm.swap a b bs)

theorem sortBy_perm (pref : α → α → Bool) (l : List α) :
    List.Perm (sortBy pref l) l := by
  induction l with
  | nil => exact List.Perm.refl _
  | cons x xs ih =>
    exact (insertBy_perm pref x (sortBy pref xs)).trans (List.Perm.cons x ih)

theorem mem_insertBy {pref : α → α → Bool} {a x : α} {l : List α} :
    x ∈ insertBy pref a l ↔ x = a ∨ x ∈ l := by
  constructor
  · intro h
    have := (insertBy_perm pref a l).mem_iff.mp h
    simpa using this
  · intro h
    refine (insertBy_perm pref a l).mem_iff.mpr ?_
    simpa using h

theorem insertBy_pairwise {pref : α → α → Bool}
    (total : ∀ a b, pref a b = true ∨ pref b a = true)
    (htrans : ∀ a b c, pref a b = true → pref b c = true → pref a c = true)
    (a : α) {l : List α} (h : l.Pairwise (fun x y => pref x y = true)) :
    (insertBy pref a l).Pairwise (fun x y => pref x y = true) := by
  induction l with
  | nil => simp [insertBy]
  | cons b bs ih =>
    rcases List.pairwise_cons.mp h with ⟨hb, hbs⟩
    simp only [insertBy]
    by_cases hab : pref a b = true
    · simp only [hab, if_pos]
      refine List.pairwise_cons.mpr ⟨?_, h⟩
      intro c hc
      rcases List.mem_cons.mp hc with rfl | hc
      · exact hab
      · exact htrans a b c hab (hb c hc)
    · simp only [hab, if_neg, Bool.not_eq_true]
      refine List.pairwise_cons.mpr ⟨?_, ih hbs⟩
      intro c hc
      rcases mem_insertBy.mp hc with rfl | hc
      · rcases total c b with hcb | hbc
        · exact absurd hcb hab
        · exact hbc
      · exact hb c hc

theorem sortBy_pairwise {pref : α → α → Bool}
    (total : ∀ a b, pref a b = true ∨ pref b a = true)
    (htrans : ∀ a b c, pref a b = true → pref b c = true → pref a c = true)
    (l : List α) :
    (sortBy pref l).Pairwise (fun x y => pref x y = true) := by
  induction l with
  | nil => simp [sortBy]
  | cons x xs ih => exact insertBy_pairwise total htrans x ih

theorem insertBy_filter_key {key : α → PyFloat} {pref : α → α → Bool}
    (hkey : ∀ x y, key x = key y → pref x y = true)
    (q : PyFloat) (a : α) (l : List α) :
    (insertBy pref a l).filter (fun x => decide (key x = q))
      = if key a = q then a :: l.filter (fun x => decide (key x = q))
        else l.filter (fun x => decide (key x = q)) := by
  induction l with
  | nil => by_cases h : key a = q <;> simp [insertBy, h]
  | cons b bs ih =>
    simp only [insertBy]
    by_cases hab : pref a b = true
    · by_cases h : key a = q <;> simp [List.filter_cons, h, hab]
    · have hne : key a ≠ key b := fun he => hab (hkey a b he)
      by_cases h : key a = q
      · have hbq : ¬ key b = q := fun hb => hne (h.trans hb.symm)
        simp [List.filter_cons, h, hbq, hab, ih]
      · by_cases hbq : key b = q <;>
          simp [List.filter_cons, h, hbq, hab, ih]

/-- Stability of the sort, phrased per key value: for every key value `q`,
the sorted list restricted to key `q` is the original list restricted to key
`q` — ties keep arrival order. -/
theorem sortBy_filter_key {key : α → PyFloat} {pref : α → α → Bool}
    (hkey : ∀ x y, key x = key y → pref x y = true)
    (q : PyFloat) (l : List α) :
    (sortBy pref l).filter (fun x => decide (key x = q))
      = l.filter (fun x => decide (key x = q)) := by
  induction l with
  | nil => rfl
  | cons x xs ih =>
    simp only [sortBy, insertBy_filter_key hkey, ih, List.filter_cons]
    by_cases h : key x = q <;> simp [h]

/-- Embedding of `df.nlargest(n, col)` (pandas): rows whose sort key is NaN
are dropped, the rest are ordered descending with ties kept in arrival order
(`keep` defaults to "first"), and the first `n` rows are returned. -/
def nlargestBy (key : α → PyFloat) (n : ℕ) (df : List α) : List α :=
  (sortBy (fun a b => pyLe (key b) (key a))
    (df.filter (fun x => !(key x).isNan))).take n

/-- Rows of `df` not returned by `nlargestBy` (the complement used to state
the permutation property). -/
def nlargestRest (key : α → PyFloat) (n : ℕ) (df : List α) : List α :=
  (sortBy (fun a b => pyLe (key b) (key a))
    (df.filter (fun x => !(key x).isNan))).drop n

/-- Embedding of `df.nsmallest(n, col)`: ascending counterpart. -/
def nsmallestBy (key : α → PyFloat) (n : ℕ) (df : List α) : List α :=
  (sortBy (fun a b => pyLe (key a) (key b))
    (df.filter (fun x => !(key x).isNan))).take n

/-- Rows of `df` not returned by `nsmallestBy`. -/
def nsmallestRest (key : α → PyFloat) (n : ℕ) (df : List α) : List α :=
  (sortBy (fun a b => pyLe (key a) (key b))
    (df.filter (fun x => !(key x).isNan))).drop n

/-- `df.nlargest(n, 'change')` as used by `create_visualizations`
(src/dashboard.py line 254) and `main` (line 459): the top performers. -/
def top_n (df : List StockSnapshot) (n : ℕ) : List StockSnapshot :=
  nlargestBy (fun s => s.change) n df

/-- Complement of `top_n` inside the collection. -/
def top_rest (df : List StockSnapshot) (n : ℕ) : List StockSnapshot :=
  nlargestRest (fun s => s.change) n df

/-- `df.nsmallest(n, 'change')` (src/dashboard.py lines 255 and 464): the
bottom performers. -/
def bottom_n (df : List StockSnapshot) (n : ℕ) : List StockSnapshot :=
  nsmallestBy (fun s => s.change) n df

/-- Complement of `bottom_n` inside the collection. -/
def bottom_rest (df : List StockSnapshot) (n : ℕ) : List StockSnapshot :=
  nsmallestRest (fun s => s.change) n df

/-- Lexical order on symbol strings (as character lists), used only to state
the specification's claimed tie-break rule. -/
def lexLe : List Char → List Char → Bool
  | [], _ => true
  | _ :: _, [] => false
  | x :: xs, y :: ys =>
      if x < y then true else if y < x then false else lexLe xs ys

/-- The ordering the specification claims for `top_n` output: strictly
descending percent change, with exact ties broken by symbol lexical order. -/
def specLexOrdered : List StockSnapshot → Bool
  | [] => true
  | [_] => true
  | a :: b :: rest =>
      ((pyLe a.change b.change = false : Bool)
        || (decide (a.change = b.change)
            && lexLe a.symbol.data b.symbol.data))
      && specLexOrdered (b :: rest)

/-- Sum of pointwise products (used by the least-squares trend fit). -/
def sumMul (xs ys : List ℚ) : ℚ := (List.zipWith (fun x y => x * y) xs ys).sum

/-- Modelled from the spec: the changepoint-aware trend of the Prophet
library is not part of this repository; following spec section 4.4 it is an
additive trend fitted by minimizing a regularized squared loss over the
observed points, embedded here as the ordinary least-squares line through
the points `(i, ys[i])`.  Returns (intercept, slope). -/
def trendFit (ys : List ℚ) : ℚ × ℚ :=
  let n : ℚ := (ys.length : ℚ)
  let xs : List ℚ := (List.range ys.length).map (fun i => (i : ℚ))
  let d := n * sumMul xs xs - xs.sum * xs.sum
  let b := if d = 0 then 0 else (n * sumMul xs ys - xs.sum * ys.sum) / d
  let a := if n = 0 then 0 else (ys.sum - b * xs.sum) / n
  (a, b)

/-- Value of the fitted trend at day index `t`. -/
def trendAt (ys : List ℚ) (t : ℕ) : ℚ :=
  (trendFit ys).1 + (trendFit ys).2 * (t : ℚ)

/-- Modelled from the spec: the periodic weekly seasonal component of spec
section 4.4, embedded as the mean detrended residual of the observations
falling on weekday `d` (0 when the weekday was never observed). -/
def weeklyAt (ys : List ℚ) (d : ℕ) : ℚ :=
  let rs := ((List.range ys.length).filter (fun i => i % 7 == d)).map
    (fun i => ys.getD i 0 - trendAt ys i)
  if rs.length = 0 then 0 else rs.sum / (rs.length : ℚ)

/-- Point estimate (`yhat`) of the fitted model at day index `t`: additive
trend plus seasonality, per spec section 4.4. -/
def predictAt (ys : List ℚ) (t : ℕ) : ℚ := trendAt ys t + weeklyAt ys (t % 7)

/-- Modelled from the spec: the residual-based variance estimate from which
the uncertainty interval is derived (spec section 4.4). -/
def residualVariance (ys : List ℚ) : ℚ :=
  ((List.range ys.length).map (fun i => (ys.getD i 0 - predictAt ys i) ^ 2)).sum
    / ((ys.length : ℚ))

/-- Modelled from the spec: half-width of the symmetric uncertainty interval,
derived from the residual variance estimate (spec section 4.4; the nominal
95 percent level fixes only the positive scale factor). -/
def intervalWidth (ys : List ℚ) : ℚ := 2 * residualVariance ys

/-- One row of the forecast frame returned by `model.predict`: the columns
`ds`, `yhat`, `yhat_lower`, `yhat_upper` that the page reads
(src/pages/4_Price_Prediction.py lines 196-220, 280, 305). -/
structure ForecastRow where
  ds : ℕ
  yhat : ℚ
  yhat_lower : ℚ
  yhat_upper : ℚ
deriving DecidableEq

/-- Failure of `model.fit` inside the Prophet library: the library raises
only when the history has fewer than 2 usable rows ("Dataframe has less
than 2 non-NaN rows").  No error type of the repository corresponds to the
spec's `InsufficientDataError`. -/
inductive FitError where
  | tooFewRows
deriving DecidableEq

/-- Modelled from the spec: `model.make_future_dataframe(periods=periods)`
followed by `model.predict(future)`.  With the default
`include_history=True` the future frame holds every history day plus
`periods` future days, so the forecast covers day indices
`0 .. history + periods - 1`; each row carries the point estimate and the
symmetric interval around it. -/
def prophetPredict (ys : List ℚ) (periods : ℕ) : List ForecastRow :=
  let w := intervalWidth ys
  (List.range (ys.length + periods)).map (fun t =>
    { ds := t
      yhat := predictAt ys t
      yhat_lower := predictAt ys t - w
      yhat_upper := predictAt ys t + w })

/-- Embedding of `train_prophet_model` (src/pages/4_Price_Prediction.py
lines 162-179): build the model, fit it on the history, extend by `periods`
days and predict.  The function itself performs no minimum-length check;
the only failure is the library's own two-row floor inside `model.fit`. -/
def train_prophet_model (historical_data : List ℚ) (periods : ℕ) :
    Except FitError (List ForecastRow) :=
  if historical_data.length < 2 then .error .tooFewRows
  else .ok (prophetPredict historical_data periods)

/-- Python slice `l[-k:]` as used on the forecast columns in
`plot_prediction` (src/pages/4_Price_Prediction.py lines 196-214): the last
`k` elements, or the whole list when `k = 0` (since `l[-0:] = l[0:]`). -/
def lastSlice (k : ℕ) (l : List α) : List α :=
  if k = 0 then l else l.drop (l.length - k)

/-- Bound check on one forecast row: lower bound below point estimate below
upper bound. -/
def rowBoundsOk (r : ForecastRow) : Bool :=
  decide (r.yhat_lower ≤ r.yhat) && decide (r.yhat ≤ r.yhat_upper)

/-- A fixed ten-day history (below the spec's ~60-day threshold), used as
the concrete scenario input. -/
def h10 : List ℚ := [100, 101, 102, 103, 104, 105, 106, 107, 108, 109]

/-- Cache store behind `st.cache_data`: one entry per key holding the
cached value and the time it was stored. -/
structure CacheState (V : Type) where
  entries : List (String × V × ℕ)

/-- Live entry lookup for a key. -/
def lookupEntry {V : Type} (st : CacheState V) (key : String) :
    Option (V × ℕ) :=
  (st.entries.find? (fun e => e.1 == key)).map (fun e => e.2)

/-- Modelled from the spec: the TTL cache (`st.cache_data(ttl=...)`) that
wraps `load_stock_data` (TTL 30, src/dashboard.py line 132) and
`load_historical_data` (TTL 3600, src/pages/4_Price_Prediction.py line 140)
is implemented by the Streamlit framework, not by this repository; spec
section 4.1 gives its contract.  `get_or_compute` returns the stored value
unchanged while the entry is younger than `ttl`; otherwise it invokes
`compute_fn`, stores the result stamped `now`, and returns it.  The third
component reports whether `compute_fn` was invoked. -/
def get_or_compute {V : Type} (st : CacheState V) (key : String)
    (ttl now : ℕ) (compute_fn : Unit → V) : V × CacheState V × Bool :=
  match lookupEntry st key with
  | some (v, ts) =>
      if now - ts < ttl then (v, st, false)
      else
        let v2 := compute_fn ()
        (v2, ⟨(key, v2, now) :: st.entries.filter (fun e => !(e.1 == key))⟩,
          true)
  | none =>
      let v2 := compute_fn ()
      (v2, ⟨(key, v2, now) :: st.entries.filter (fun e => !(e.1 == key))⟩,
        true)

/-- The non-null P/E values of a collection, in arrival order: the values
pandas' `mean()` (with its default `skipna=True`) averages over. -/
def pe_values (df : List StockSnapshot) : List ℚ :=
  df.filterMap (fun s => s.pe_ratio)

/-- Mean of a pandas numeric Series with `skipna=True`: the mean of the
non-null values, and NaN (here `none`) when there are none. -/
def series_mean (xs : List ℚ) : Option ℚ :=
  if xs.isEmpty then none else some (xs.sum / (xs.length : ℚ))

/-- Embedding of `avg_pe = df['pe_ratio'].mean()`
(src/pages/2_Market_Overview.py line 227). -/
def avg_pe (df : List StockSnapshot) : Option ℚ := series_mean (pe_values df)

/-- The dictionary built by `get_stock_metrics`
(src/pages/3_Stock_Comparison.py lines 159-167). -/
structure StockMetrics where
  price : ℚ
  change : PyFloat
  volume : ℚ
  market_cap : ℚ
  pe_ratio : Option ℚ
  dividend_yield : ℚ
  sector : String
deriving DecidableEq

/-- Embedding of `get_stock_metrics(df, symbol)`
(src/pages/3_Stock_Comparison.py lines 156-167):
`df[df['symbol'] == symbol].iloc[0]` selects the first matching row;
`iloc[0]` on an empty selection raises an untyped `IndexError`, modelled as
`none`. -/
def get_stock_metrics (df : List StockSnapshot) (symbol : String) :
    Option StockMetrics :=
  (df.filter (fun s => s.symbol == symbol)).head?.map (fun r =>
    { price := r.price
      change := r.change
      volume := r.volume
      market_cap := r.market_cap
      pe_ratio := r.pe_ratio
      dividend_yield := r.dividend_yield
      sector := r.sector })

/-- Embedding of the prediction page's current-stock lookup
`stock_info = df[df['symbol'] == selected_stock].iloc[0]`
(src/pages/4_Price_Prediction.py line 255); again `iloc[0]` raises an
untyped `IndexError` when the symbol is absent, modelled as `none`. -/
def stock_info_lookup (df : List StockSnapshot) (selected_stock : String) :
    Option StockSnapshot :=
  (df.filter (fun s => s.symbol == selected_stock)).head?

/-- C1 counterexample: the claim says the percent change is undefined and
must not be computed when the prior-session close is zero; but the builder
(src/dashboard.py lines 173-176) divides unconditionally, so for a prior
close of 0 and a latest close of 1 it computes a definite percent change of
+infinity and keeps the row instead of skipping the computation. -/
theorem c1_counterexample :
    (processSymbol "KO" [⟨0, 100⟩, ⟨1, 200⟩]
        ⟨some "Coca-Cola", some "Consumer Defensive", some 1000,
          some 20, none⟩).map (fun s => s.change)
      = some PyFloat.posInf := by
  norm_num [processSymbol, mkSnapshot, pctChange, pyDiv]

/-- C1 (amended): the snapshot builder computes the percent change
unconditionally whenever both session bars are present — with a zero prior
close it evaluates to a signed infinity (or NaN for 0/0) instead of being
left uncomputed; a missing prior bar (fewer than two rows) drops the symbol
so no change is computed; and whenever the prior close is positive the
computed change is finite with sign positive exactly when the latest price
exceeds the prior price and negative exactly when it is below it. -/
theorem c1_change_computation :
    (∀ (sym : String) (rows : List QuoteBar) (info : TickerInfo),
      rows.length < 2 → processSymbol sym rows info = none)
    ∧ (∀ (sym : String) (info : TickerInfo) (y t : QuoteBar),
        ∃ snap, processSymbol sym [y, t] info = some snap
          ∧ snap.change = pctChange t.close y.close)
    ∧ (∀ price prev : ℚ, 0 < prev →
        ∃ c : ℚ, pctChange price prev = .fin c
          ∧ (0 < c ↔ prev < price) ∧ (c < 0 ↔ price < prev))
    ∧ (∀ price : ℚ, 0 < price → pctChange price 0 = .posInf)
    ∧ (∀ price : ℚ, price < 0 → pctChange price 0 = .negInf)
    ∧ pctChange 0 0 = .nan := by
  refine ⟨?_, ?_, ?_, ?_, ?_, ?_⟩
  · intro sym rows info hlen
    cases rows with
    | nil => rfl
    | cons a tl =>
      cases tl with
      | nil => rfl
      | cons b u => simp at hlen; omega
  · intro sym info y t
    exact ⟨_, rfl, rfl⟩
  · intro price prev hprev
    refine ⟨(price - prev) / prev * 100, ?_, ?_, ?_⟩
    · simp [pctChange, pyDiv, hprev.ne']
    · have hmul : (price - prev) / prev * prev = price - prev :=
        div_mul_cancel₀ _ hprev.ne'
      constructor
      · intro hc
        have hq : 0 < (price - prev) / prev := by linarith
        have : 0 < (price - prev) / prev * prev := mul_pos hq hprev
        rw [hmul] at this
        linarith
      · intro hlt
        have hq : 0 < (price - prev) / prev :=
          div_pos (by linarith) hprev
        linarith
    · have hmul : (price - prev) / prev * prev = price - prev :=
        div_mul_cancel₀ _ hprev.ne'
      constructor
      · intro hc
        have hq : (price - prev) / prev < 0 := by linarith
        have : (price - prev) / prev * prev < 0 := mul_neg_of_neg_of_pos hq hprev
        rw [hmul] at this
        linarith
      · intro hlt
        have hq : (price - prev) / prev < 0 :=
          div_neg_of_neg_of_pos (by linarith) hprev
        linarith
  · intro price hpos
    simp [pctChange, pyDiv, sub_zero, hpos]
  · intro price hneg
    simp [pctChange, pyDiv, sub_zero, hneg, hneg.not_lt, asymm hneg]
  · norm_num [pctChange, pyDiv]

/-- C1 witness: the sign law applied at latest price 11, prior price 10. -/
theorem c1_change_computation_witness :
    (0 : ℚ) < 10
    ∧ ∃ c : ℚ, pctChange 11 10 = .fin c
        ∧ (0 < c ↔ (10 : ℚ) < 11) ∧ (c < 0 ↔ (11 : ℚ) < 10) :=
  ⟨by norm_num, c1_change_computation.2.2.1 11 10 (by norm_num)⟩

/-- C2: a per-symbol fetch or parse failure excludes exactly that symbol
and never aborts the batch: for every symbol set and adapter, the symbols
of the resulting collection are precisely the input symbols whose per-symbol
processing succeeded, and in the concrete {A, B, C} scenario where the
adapter raises for B only, the collection holds exactly A and C. -/
theorem c2_per_symbol_isolation :
    (∀ (symbols : List String) (fetch : SymbolFetch),
      (load_stock_data symbols (.ok ()) fetch).map
          (fun df => df.map (fun s => s.symbol))
        = some (symbols.filter (symbolOk fetch)))
    ∧ (load_stock_data ["A", "B", "C"] (.ok ()) exampleFetch).map
          (fun df => df.map (fun s => s.symbol))
        = some ["A", "C"] := by
  constructor
  · intro symbols fetch
    simp [load_stock_data, buildRows_symbols]
  · rfl

/-- C3 counterexample: the claim says a history of length 10 makes
`train_and_forecast` fail with `InsufficientDataError`; but
`train_prophet_model` (src/pages/4_Price_Prediction.py lines 162-179)
performs no minimum-length check at all (and the repository defines no
`InsufficientDataError`), so the ten-day history is fitted and a forecast
is returned. -/
theorem c3_counterexample :
    h10.length = 10
    ∧ train_prophet_model h10 30 = .ok (prophetPredict h10 30) :=
  ⟨rfl, rfl⟩

/-- C3 (amended): `train_prophet_model` performs no minimum-observation
check; every history with at least two rows (the fitting library's own
floor) is fitted and produces a forecast covering history plus horizon
rather than failing, including a ten-day history. -/
theorem c3_no_minimum_check :
    ∀ (historical_data : List ℚ) (periods : ℕ),
      2 ≤ historical_data.length →
      ∃ fc, train_prophet_model historical_data periods = .ok fc
        ∧ fc.length = historical_data.length + periods := by
  intro historical_data periods hlen
  refine ⟨prophetPredict historical_data periods, ?_, ?_⟩
  · simp [train_prophet_model, Nat.not_lt.mpr hlen]
  · simp [prophetPredict]

/-- C3 witness: the ten-day history is accepted and yields a forecast of
length 40 for a 30-day horizon. -/
theorem c3_no_minimum_check_witness :
    2 ≤ h10.length
    ∧ ∃ fc, train_prophet_model h10 30 = .ok fc
        ∧ fc.length = h10.length + 30 :=
  ⟨by decide, c3_no_minimum_check h10 30 (by decide)⟩

/-- C4: every point of every forecast produced by `train_prophet_model`
satisfies lower bound  ≤ point estimate ≤ upper bound (vacuously when the
call fails, since then no forecast is produced); the interval is the
symmetric band of nonnegative half-width around the point estimate. -/
theorem c4_interval_bounds :
    ∀ (historical_data : List ℚ) (periods : ℕ),
      ((train_prophet_model historical_data periods).toOption.getD []).all
          rowBoundsOk = true := by
  intro historical_data periods
  unfold train_prophet_model
  by_cases hl : historical_data.length < 2
  · simp [hl, Except.toOption]
  · have hsum : 0 ≤ ((List.range historical_data.length).map
        (fun i => (historical_data.getD i 0
          - predictAt historical_data i) ^ 2)).sum := by
      refine List.sum_nonneg ?_
      intro x hx
      obtain ⟨i, _, rfl⟩ := List.mem_map.mp hx
      positivity
    have hvar : 0 ≤ residualVariance historical_data :=
      div_nonneg hsum (Nat.cast_nonneg _)
    have hw : 0 ≤ intervalWidth historical_data :=
      mul_nonneg (by norm_num) hvar
    rw [if_neg hl]
    rw [List.all_eq_true]
    intro r hr
    simp only [Except.toOption, Option.getD_some] at hr
    simp only [prophetPredict, List.mem_map, List.mem_range] at hr
    obtain ⟨t, _, rfl⟩ := hr
    simp only [rowBoundsOk, Bool.and_eq_true, decide_eq_true_eq]
    constructor
    · linarith
    · linarith

/-- Snapshot rows used in the tie-break scenario, with the arrival order
the dashboard's symbol list gives them (MSFT before AMZN before TSLA) and
equal percent changes. -/
def snapM : StockSnapshot :=
  ⟨"MSFT", "Microsoft", "Technology", 430, .fin 0, 1000, 3000, some 35, 0⟩

/-- Second tied row, arriving after MSFT. -/
def snapA : StockSnapshot :=
  ⟨"AMZN", "Amazon", "Consumer Cyclical", 180, .fin 0, 2000, 1900, some 40, 0⟩

/-- Third tied row, arriving after AMZN. -/
def snapT : StockSnapshot :=
  ⟨"TSLA", "Tesla", "Consumer Cyclical", 250, .fin 0, 3000, 800, some 60, 0⟩

/-- C5 counterexample: the claim says `top_n` breaks percent-change ties by
symbol lexical order; but pandas `nlargest` keeps tied rows in arrival
order (`keep` defaults to "first"), so three tied rows arriving as
MSFT, AMZN, TSLA come back in that same order, which is lexically ordered
in neither direction (MSFT before AMZN fails ascending, AMZN before TSLA
fails descending) — the spec's claimed ordering predicate is false of the
output. -/
theorem c5_counterexample :
    specLexOrdered (top_n [snapM, snapA, snapT] 3) = false := by
  decide

/-- C5 (amended): `top_n` (pandas `nlargest` on percent change) returns the
first `k` rows of a stable descending sort — so `k` is clamped to the
collection size, the output is sorted by percent change descending,
`top_n` concatenated with its complement is a permutation of the
collection, rows with equal percent change keep their arrival order
(rather than symbol lexical order), and symmetrically `bottom_n`
(`nsmallest`) is sorted ascending with the same permutation property. -/
theorem c5_ranking :
    ∀ (df : List StockSnapshot) (k : ℕ),
      (∀ s ∈ df, s.change.isNan = false) →
      (top_n df k).length = min k df.length
      ∧ List.Pairwise (fun a b => pyLe b.change a.change = true) (top_n df k)
      ∧ List.Perm (top_n df k ++ top_rest df k) df
      ∧ (∀ q, (top_n df k ++ top_rest df k).filter
            (fun s => decide (s.change = q))
          = df.filter (fun s => decide (s.change = q)))
      ∧ (bottom_n df k).length = min k df.length
      ∧ List.Pairwise (fun a b => pyLe a.change b.change = true)
          (bottom_n df k)
      ∧ List.Perm (bottom_n df k ++ bottom_rest df k) df := by
  intro df k h
  have hfilt : df.filter (fun x => !(x.change).isNan) = df := by
    refine List.filter_eq_self.mpr ?_
    intro s hs
    simp [h s hs]
  have hdperm : List.Perm
      (sortBy (fun a b : StockSnapshot => pyLe b.change a.change) df) df :=
    sortBy_perm _ df
  have haperm : List.Perm
      (sortBy (fun a b : StockSnapshot => pyLe a.change b.change) df) df :=
    sortBy_perm _ df
  refine ⟨?_, ?_, ?_, ?_, ?_, ?_, ?_⟩
  · simp [top_n, nlargestBy, hfilt, hdperm.length_eq]
  · refine List.Pairwise.sublist (List.take_sublist _ _) ?_
    simp only [top_n, nlargestBy, hfilt]
    exact @sortBy_pairwise StockSnapshot
      (fun a b => pyLe b.change a.change)
      (fun a b => pyLe_total b.change a.change)
      (fun a b c h1 h2 => pyLe_trans h2 h1) df
  · simp only [top_n, top_rest, nlargestBy, nlargestRest, hfilt,
      List.take_append_drop]
    exact hdperm
  · intro q
    simp only [top_n, top_rest, nlargestBy, nlargestRest, hfilt,
      List.take_append_drop]
    exact @sortBy_filter_key StockSnapshot (fun s => s.change)
      (fun a b => pyLe b.change a.change)
      (fun x y hxy => by
        have hc : x.change = y.change := hxy
        show pyLe y.change x.change = true
        rw [← hc]
        exact pyLe_refl _) q df
  · simp [bottom_n, nsmallestBy, hfilt, haperm.length_eq]
  · refine List.Pairwise.sublist (List.take_sublist _ _) ?_
    simp only [bottom_n, nsmallestBy, hfilt]
    exact @sortBy_pairwise StockSnapshot
      (fun a b => pyLe a.change b.change)
      (fun a b => pyLe_total a.change b.change)
      (fun a b c h1 h2 => pyLe_trans h1 h2) df
  · simp only [bottom_n, bottom_rest, nsmallestBy, nsmallestRest, hfilt,
      List.take_append_drop]
    exact haperm

/-- C5 witness: the ranking properties applied to the three-row collection
with `k = 1`. -/
theorem c5_ranking_witness :
    (∀ s ∈ [snapM, snapA, snapT], s.change.isNan = false)
    ∧ ((top_n [snapM, snapA, snapT] 1).length
          = min 1 [snapM, snapA, snapT].length
      ∧ List.Pairwise (fun a b => pyLe b.change a.change = true)
          (top_n [snapM, snapA, snapT] 1)
      ∧ List.Perm (top_n [snapM, snapA, snapT] 1
          ++ top_rest [snapM, snapA, snapT] 1) [snapM, snapA, snapT]
      ∧ (∀ q, (top_n [snapM, snapA, snapT] 1
            ++ top_rest [snapM, snapA, snapT] 1).filter
            (fun s => decide (s.change = q))
          = [snapM, snapA, snapT].filter (fun s => decide (s.change = q)))
      ∧ (bottom_n [snapM, snapA, snapT] 1).length
          = min 1 [snapM, snapA, snapT].length
      ∧ List.Pairwise (fun a b => pyLe a.change b.change = true)
          (bottom_n [snapM, snapA, snapT] 1)
      ∧ List.Perm (bottom_n [snapM, snapA, snapT] 1
          ++ bottom_rest [snapM, snapA, snapT] 1) [snapM, snapA, snapT]) :=
  ⟨by decide, c5_ranking [snapM, snapA, snapT] 1 (by decide)⟩

/-- C6: a successful `train_prophet_model` call returns the full
fitted-plus-forecast series covering history plus horizon, and the page's
`[-prediction_days:]` slice of it — the forecast view — has length exactly
`horizon_days`. -/
theorem c6_forecast_view :
    ∀ (historical_data : List ℚ) (periods : ℕ) (fc : List ForecastRow),
      0 < periods →
      train_prophet_model historical_data periods = .ok fc →
      fc.length = historical_data.length + periods
      ∧ (lastSlice periods fc).length = periods := by
  intro historical_data periods fc hp hok
  unfold train_prophet_model at hok
  by_cases hl : historical_data.length < 2
  · rw [if_pos hl] at hok
    exact absurd hok (by simp)
  · rw [if_neg hl] at hok
    have hfc : fc = prophetPredict historical_data periods :=
      (Except.ok.inj hok).symm
    have hlen : fc.length = historical_data.length + periods := by
      simp [hfc, prophetPredict]
    refine ⟨hlen, ?_⟩
    rw [lastSlice, if_neg hp.ne', List.length_drop, hlen]
    omega

/-- C6 witness: the ten-day history with a 30-day horizon gives a 40-row
forecast whose view slice has exactly 30 rows. -/
theorem c6_forecast_view_witness :
    0 < 30
    ∧ train_prophet_model h10 30 = .ok (prophetPredict h10 30)
    ∧ ((prophetPredict h10 30).length = h10.length + 30
      ∧ (lastSlice 30 (prophetPredict h10 30)).length = 30) :=
  ⟨by decide, rfl, c6_forecast_view h10 30 (prophetPredict h10 30)
    (by decide) rfl⟩

/-- C7: once a value has been computed and cached for a key, a second
`get_or_compute` within the TTL window returns exactly the cached value and
the unchanged store, and does not invoke the compute function again (the
invocation flag is `false`, and the result does not depend on the second
call's compute function at all).  The single TTL parameter covers both the
30-second snapshot path and the 3600-second historical path. -/
theorem c7_ttl_cache_hit :
    ∀ {V : Type} (st : CacheState V) (key : String) (ttl t1 t2 : ℕ)
      (f g : Unit → V),
      lookupEntry st key = none → t1 ≤ t2 → t2 - t1 < ttl →
      get_or_compute ((get_or_compute st key ttl t1 f).2.1) key ttl t2 g
        = ((get_or_compute st key ttl t1 f).1,
            (get_or_compute st key ttl t1 f).2.1, false) := by
  intro V st key ttl t1 t2 f g h0 hle hwin
  have h1 : get_or_compute st key ttl t1 f
      = (f (), ⟨(key, f (), t1)
          :: st.entries.filter (fun e => !(e.1 == key))⟩, true) := by
    simp [get_or_compute, h0]
  rw [h1]
  have h2 : lookupEntry (⟨(key, f (), t1)
      :: st.entries.filter (fun e => !(e.1 == key))⟩ : CacheState V) key
      = some (f (), t1) := by
    simp [lookupEntry, List.find?_cons]
  simp [get_or_compute, h2, hwin]

/-- C7 witness: a fresh cache, first call at time 0 with TTL 30, second
call at time 29 with a different compute function. -/
theorem c7_ttl_cache_hit_witness :
    lookupEntry (⟨[]⟩ : CacheState ℕ) "snapshots" = none
    ∧ (0 : ℕ) ≤ 29 ∧ 29 - 0 < 30
    ∧ get_or_compute
        ((get_or_compute (⟨[]⟩ : CacheState ℕ) "snapshots" 30 0
          (fun _ => 5)).2.1) "snapshots" 30 29 (fun _ => 99)
      = ((get_or_compute (⟨[]⟩ : CacheState ℕ) "snapshots" 30 0
            (fun _ => 5)).1,
          (get_or_compute (⟨[]⟩ : CacheState ℕ) "snapshots" 30 0
            (fun _ => 5)).2.1, false) :=
  ⟨rfl, by decide, by decide,
    c7_ttl_cache_hit (⟨[]⟩ : CacheState ℕ) "snapshots" 30 0 29
      (fun _ => 5) (fun _ => 99) rfl (by decide) (by decide)⟩

/-- C9: the mean P/E aggregate averages exactly the non-null P/E values:
when every row's P/E is null the mean is NaN (`none`, never a defaulted
zero), and whenever a finite mean is produced it equals the sum of the
non-null P/E values divided by their count. -/
theorem c9_mean_pe :
    ∀ df : List StockSnapshot,
      ((∀ s ∈ df, s.pe_ratio = none) → avg_pe df = none)
      ∧ (∀ q : ℚ, avg_pe df = some q →
          pe_values df ≠ []
            ∧ q = (pe_values df).sum / ((pe_values df).length : ℚ)) := by
  intro df
  constructor
  · intro hall
    have hnil : pe_values df = [] := by
      rw [pe_values, List.filterMap_eq_nil_iff]
      exact hall
    simp [avg_pe, hnil, series_mean]
  · intro q hq
    cases he : (pe_values df).isEmpty with
    | true => simp [avg_pe, series_mean, he] at hq
    | false =>
      rw [avg_pe, series_mean, if_neg (by simp [he])] at hq
      exact ⟨by simpa using he, (Option.some.inj hq).symm⟩

/-- Row with a null P/E ratio, used for the all-null mean scenario. -/
def snapV : StockSnapshot :=
  ⟨"VZ", "Verizon", "Communication Services", 40, .fin 1, 500, 170, none, 6⟩

/-- C9 witness: a one-row collection whose only P/E is null has a NaN
mean. -/
theorem c9_mean_pe_witness :
    (∀ s ∈ [snapV], s.pe_ratio = none) ∧ avg_pe [snapV] = none :=
  ⟨by decide, (c9_mean_pe [snapV]).1 (by decide)⟩

/-- C10: both per-symbol lookups — `get_stock_metrics` on the comparison
page and the prediction page's current-stock lookup — succeed exactly when
the symbol is present in the collection: when it is absent (for example
dropped after a per-symbol fetch failure) the `iloc[0]` indexing fails
(an untyped `IndexError`, modelled as `none`) instead of returning a typed
failure or an empty result. -/
theorem c10_absent_symbol_lookup :
    ∀ (df : List StockSnapshot) (sym : String),
      (get_stock_metrics df sym = none
        ↔ sym ∉ df.map (fun s => s.symbol))
      ∧ (stock_info_lookup df sym = none
        ↔ sym ∉ df.map (fun s => s.symbol)) := by
  intro df sym
  have hbase : (df.filter (fun s => s.symbol == sym)).head? = none
      ↔ sym ∉ df.map (fun s => s.symbol) := by
    rw [List.head?_eq_none_iff, List.filter_eq_nil_iff]
    simp [List.mem_map]
  constructor
  · rw [get_stock_metrics, Option.map_eq_none']
    exact hbase
  · exact hbase
